import Mathlib

/-!
Shallow embedding of the map-rendering pipeline of `src/main.go` (the
evacuate/images service): the intensity color ramp, the active-region
bounds calculator, the auto-fit projector, the path builder, the scene
composer and the label pass of the rasterizer.  Go float64 arithmetic is
modelled over the reals; Go panics and early `http.Error` returns are
modelled with `Except String`.
-/

namespace Images

/-- A (longitude, latitude) coordinate, one entry `coord` of a GeoJSON ring
(`coord[0]` is the longitude, `coord[1]` the latitude). -/
structure Coord where
  lon : ℝ
  lat : ℝ

/-- A feature's geometry: `feature.Geometry` in the Go source.  `unsupported`
stands for any `Type` other than `"Polygon"` and `"MultiPolygon"`. -/
inductive Geometry where
  | polygon (rings : List (List Coord))
  | multiPolygon (polys : List (List (List Coord)))
  | unsupported (typ : String)

/-- A GeoJSON feature: `id` is `some n` when `feature.Properties["id"]` holds a
float64 (Go reads it as `int(... .(float64))`), `none` when the property is
missing or of another type (where the Go type assertion panics or the
`, ok` form reports failure). -/
structure Feature where
  id : Option Int
  geom : Geometry

/-- One `{id, scale}` pair of the request's intensity payload
(`IntensityQuery` in the source). -/
structure IntensityQuery where
  id : Int
  scale : Int
deriving DecidableEq

/-- One step of building `scaleMap`: `scaleMap[intensity.ID] = intensity.Scale`
overwrites any earlier entry for the same id. -/
def scaleMapInsert (m : Int → Int) (q : IntensityQuery) : Int → Int :=
  fun i => if i = q.id then q.scale else m i

/-- The `scaleMap` loop of `mapHandler` (src/main.go lines 227-236): each pair
is validated (`scale < 0 || scale > 7` aborts the request with 400) and then
inserted into the map.  A Go map lookup of an absent key yields 0, so the map
is modelled as a total function with default 0. -/
def buildScaleMapE : List IntensityQuery → (Int → Int) → Except String (Int → Int)
  | [], m => .ok m
  | q :: rest, m =>
    if q.scale < 0 ∨ 7 < q.scale then .error "Invalid scale value"
    else buildScaleMapE rest (scaleMapInsert m q)

/-- `intensityToColor` of src/main.go: the switch over the scale with its
default branch (`scale > 6`, then `scale > 5`, else the inactive color). -/
def intensityToColor (scale : Int) : String :=
  if scale = 0 then "#27272a"
  else if scale = 1 then "#bae6fd"
  else if scale = 2 then "#4ade80"
  else if scale = 3 then "#facc15"
  else if scale = 4 then "#f97316"
  else if scale = 5 then "#dc2626"
  else if scale = 6 then "#86198f"
  else if scale = 7 then "#500724"
  else if scale > 6 then "#4a044e"
  else if scale > 5 then "#b91c1c"
  else "#27272a"

/-- The four running extrema of `calculateBounds`. -/
structure Bounds where
  minLon : ℝ
  minLat : ℝ
  maxLon : ℝ
  maxLat : ℝ

/-- The innermost statements of `calculateBounds`: widen the running extrema
by one coordinate (Go's float64 `min`/`max` helpers of lines 380-392). -/
noncomputable def updCoord (b : Bounds) (c : Coord) : Bounds :=
  ⟨min b.minLon c.lon, min b.minLat c.lat, max b.maxLon c.lon, max b.maxLat c.lat⟩

/-- The ring loop of `calculateBounds`. -/
noncomputable def updRing (b : Bounds) (ring : List Coord) : Bounds :=
  ring.foldl updCoord b

/-- The ring-list loop of `calculateBounds` (the body shared by the
`"Polygon"` case and one polygon of the `"MultiPolygon"` case). -/
noncomputable def updRings (b : Bounds) (rings : List (List Coord)) : Bounds :=
  rings.foldl updRing b

/-- The geometry switch of `calculateBounds`: a type that is neither
`"Polygon"` nor `"MultiPolygon"` matches no case and leaves the extrema
unchanged. -/
noncomputable def updGeometry (b : Bounds) : Geometry → Bounds
  | .polygon rings => updRings b rings
  | .multiPolygon polys => polys.foldl updRings b
  | .unsupported _ => b

/-- The initialization of `calculateBounds`:
`minLon = 180, minLat = 90, maxLon = -180, maxLat = -90`. -/
noncomputable def initBounds : Bounds := ⟨180, 90, -180, -90⟩

/-- The feature loop of `calculateBounds`: the id property is asserted first
(`feature.Properties["id"].(float64)` panics when it is absent), features
whose scale is 0 are skipped, the rest widen the extrema. -/
noncomputable def calculateBoundsAux (sm : Int → Int) : List Feature → Bounds → Except String Bounds
  | [], b => .ok b
  | f :: rest, b =>
    match f.id with
    | none => .error "panic: interface conversion"
    | some i =>
      if sm i = 0 then calculateBoundsAux sm rest b
      else calculateBoundsAux sm rest (updGeometry b f.geom)

/-- `calculateBounds` of src/main.go (lines 81-121). -/
noncomputable def calculateBounds (fs : List Feature) (sm : Int → Int) : Except String Bounds :=
  calculateBoundsAux sm fs initBounds

/-- All coordinates of a geometry, flattening rings and sub-polygons. -/
def geomCoords : Geometry → List Coord
  | .polygon rings => rings.flatten
  | .multiPolygon polys => (polys.map (fun rings => rings.flatten)).flatten
  | .unsupported _ => []

/-- The bounds contain the coordinate on both axes. -/
def containsCoord (b : Bounds) (c : Coord) : Prop :=
  b.minLon ≤ c.lon ∧ c.lon ≤ b.maxLon ∧ b.minLat ≤ c.lat ∧ c.lat ≤ b.maxLat

/-- The second bounds are at least as wide as the first on every side. -/
def widens (b b' : Bounds) : Prop :=
  b'.minLon ≤ b.minLon ∧ b'.minLat ≤ b.minLat ∧ b.maxLon ≤ b'.maxLon ∧ b.maxLat ≤ b'.maxLat

/-- The geometries of the features whose assigned intensity is non-zero, in
order; features with a missing id are dropped (on them `calculateBounds`
panics instead). -/
def activeGeoms (fs : List Feature) (sm : Int → Int) : List Geometry :=
  fs.filterMap (fun f => f.id.bind (fun i => if sm i = 0 then none else some f.geom))

/-- The closure `funcToScreen` of `mapHandler` (src/main.go lines 275-300):
margin 0.1 per side, geographic and pixel centers, the `cos` longitude
correction, letterbox scale, and the final transform. -/
noncomputable def funcToScreen (b : Bounds) (W H : ℝ) (lon lat : ℝ) : ℝ × ℝ :=
  let margin : ℝ := 0.1
  let effectiveWidth := W * (1.0 - 2 * margin)
  let effectiveHeight := H * (1.0 - 2 * margin)
  let centerLat := (b.maxLat + b.minLat) / 2
  let centerLon := (b.maxLon + b.minLon) / 2
  let centerX := W / 2
  let centerY := H / 2
  let lonCorrection := Real.cos (centerLat * Real.pi / 180.0)
  let lonSpan := (b.maxLon - b.minLon) * lonCorrection
  let latSpan := b.maxLat - b.minLat
  let scaleX := effectiveWidth / lonSpan
  let scaleY := effectiveHeight / latSpan
  let scale := min scaleX scaleY
  (((lon - centerLon) * lonCorrection) * scale + centerX,
    (centerLat - lat) * scale + centerY)

/-- Modelled from the spec: the projector formula as C1 words it, with
centerLon/centerLat the midpoints of the bounds, lonCorrection the cosine of
the center latitude in radians, margin fraction 0.1 on each side, and scale
the minimum of (effectiveWidth / corrected lon span) and
(effectiveHeight / lat span). -/
noncomputable def specProject (b : Bounds) (W H : ℝ) (lon lat : ℝ) : ℝ × ℝ :=
  let centerLon := (b.minLon + b.maxLon) / 2
  let centerLat := (b.minLat + b.maxLat) / 2
  let lonCorrection := Real.cos (centerLat * Real.pi / 180)
  let effectiveWidth := W * 0.8
  let effectiveHeight := H * 0.8
  let scale :=
    min (effectiveWidth / ((b.maxLon - b.minLon) * lonCorrection))
      (effectiveHeight / (b.maxLat - b.minLat))
  ((lon - centerLon) * lonCorrection * scale + W / 2,
    (centerLat - lat) * scale + H / 2)

/-- One command of an SVG path string: the `M`, ` L` and ` Z` pieces the
path-building loop of `mapHandler` appends. -/
inductive PathCmd where
  | moveTo (p : ℝ × ℝ)
  | lineTo (p : ℝ × ℝ)
  | closePath

/-- The `for i, coord := range ring` loop of `mapHandler`: index 0 emits the
move-to, every later index a line-to, and the ` Z` is appended after the
loop. -/
def ringPathAux (proj : Coord → ℝ × ℝ) : List Coord → Nat → List PathCmd
  | [], _ => [.closePath]
  | c :: cs, i =>
    (if i = 0 then PathCmd.moveTo (proj c) else PathCmd.lineTo (proj c)) ::
      ringPathAux proj cs (i + 1)

/-- One closed path for one ring. -/
def ringPath (proj : Coord → ℝ × ℝ) (ring : List Coord) : List PathCmd :=
  ringPathAux proj ring 0

/-- The path-building branch of `mapHandler` (src/main.go lines 320-351):
one path per ring for a Polygon, one per ring of every sub-polygon for a
MultiPolygon, and no path at all for any other geometry type (the
`if`/`else if` chain has no final `else`). -/
def buildPaths (proj : Coord → ℝ × ℝ) : Geometry → List (List PathCmd)
  | .polygon rings => rings.map (ringPath proj)
  | .multiPolygon polys => (polys.map (fun rings => rings.map (ringPath proj))).flatten
  | .unsupported _ => []

/-- Number of vertices a path visits (its move-to and line-to commands). -/
def vertexCount (p : List PathCmd) : Nat :=
  p.countP (fun cmd => match cmd with | .closePath => false | _ => true)

/-- The style attributes `mapHandler` formats into each path's style string:
`fill:<color>;stroke:#a1a1aa;stroke-width:<w>;fill-opacity:0.8`. -/
structure PathStyle where
  fill : String
  stroke : String
  strokeWidth : ℝ
  fillOpacity : ℝ

/-- One element of the SVG scene `mapHandler` writes: the full-canvas
background rectangle, or one region's combined path with its style. -/
inductive SceneElem where
  | background (w h : ℝ) (fill : String)
  | regionPath (subpaths : List (List PathCmd)) (style : PathStyle)

/-- The feature loop of `mapHandler` (src/main.go lines 307-362): the id
property is read with the `, ok` form (failure aborts the request with 500),
the scale defaults to 0 for absent ids, the fill color comes from
`intensityToColor`, and one path element per feature is emitted. -/
def composeSceneAux (proj : Coord → ℝ × ℝ) (sm : Int → Int) (multiplier : ℝ) :
    List Feature → Except String (List SceneElem)
  | [] => .ok []
  | f :: rest =>
    match f.id with
    | none => .error "Invalid ID format in GeoJSON"
    | some i =>
      let fillColor := intensityToColor (sm i)
      let strokeWidth := 0.4 * multiplier
      match composeSceneAux proj sm multiplier rest with
      | .error e => .error e
      | .ok tail =>
        .ok (SceneElem.regionPath (buildPaths proj f.geom)
          ⟨fillColor, "#a1a1aa", strokeWidth, 0.8⟩ :: tail)

/-- The scene `mapHandler` writes: the background rectangle
(`fill:#18181b`) first, then the per-feature paths in dataset order. -/
def composeScene (fs : List Feature) (sm : Int → Int) (proj : Coord → ℝ × ℝ)
    (multiplier W H : ℝ) : Except String (List SceneElem) :=
  match composeSceneAux proj sm multiplier fs with
  | .error e => .error e
  | .ok elems => .ok (SceneElem.background W H "#18181b" :: elems)

/-- `calculateCenter` of src/main.go (lines 123-133): the unweighted mean of
a coordinate list. -/
noncomputable def calculateCenter (coords : List Coord) : ℝ × ℝ :=
  ((coords.map Coord.lon).sum / coords.length, (coords.map Coord.lat).sum / coords.length)

/-- Go's float64-to-int conversion: truncation toward zero. -/
noncomputable def goInt (x : ℝ) : Int :=
  if x < 0 then ⌈x⌉ else ⌊x⌋

/-- One label drawn by `svgToPNG`: the pixel point passed to `freetype.Pt`
and the text `fmt.Sprintf` renders from the scale. -/
structure LabelCmd where
  x : Int
  y : Int
  text : String
deriving DecidableEq

/-- The label for a projected centroid: `Pt(int(x)-5, int(y)+5)` and the
decimal rendering of the scale. -/
noncomputable def mkLabel (proj : Coord → ℝ × ℝ) (c : ℝ × ℝ) (scale : Int) : LabelCmd :=
  ⟨goInt (proj ⟨c.1, c.2⟩).1 - 5, goInt (proj ⟨c.1, c.2⟩).2 + 5, toString scale⟩

/-- The centroid `svgToPNG` labels: `calculateCenter(Polygon[0])` for a
Polygon, `calculateCenter(MultiPolygon[0][0])` for a MultiPolygon, and the
zero value (0, 0) when the geometry switch matches no case; the empty cases
are junk values (the Go code panics there, which `labelsAux` models). -/
noncomputable def centroidOf : Geometry → ℝ × ℝ
  | .polygon (r :: _) => calculateCenter r
  | .polygon [] => (0, 0)
  | .multiPolygon ((r :: _) :: _) => calculateCenter r
  | .multiPolygon _ => (0, 0)
  | .unsupported _ => (0, 0)

/-- The `showScale` loop of `svgToPNG` (src/main.go lines 173-199): the id
is asserted (panic when absent), features with absent or zero scale are
skipped, the centroid is computed by the geometry switch (indexing an empty
slice panics), and the scale value is drawn at `(int(x)-5, int(y)+5)`. -/
noncomputable def labelsAux (proj : Coord → ℝ × ℝ) (sm : Int → Int) :
    List Feature → Except String (List LabelCmd)
  | [] => .ok []
  | f :: rest =>
    match f.id with
    | none => .error "panic: interface conversion"
    | some i =>
      if sm i = 0 then labelsAux proj sm rest
      else
        match f.geom with
        | .polygon [] => .error "panic: index out of range"
        | .multiPolygon [] => .error "panic: index out of range"
        | .multiPolygon ([] :: _) => .error "panic: index out of range"
        | g =>
          match labelsAux proj sm rest with
          | .error e => .error e
          | .ok tail => .ok (mkLabel proj (centroidOf g) (sm i) :: tail)

/-- Membership in the margin-adjusted drawing rectangle
`[0.1 * W, 0.9 * W] x [0.1 * H, 0.9 * H]`. -/
def inRect (W H : ℝ) (p : ℝ × ℝ) : Prop :=
  W * 0.1 ≤ p.1 ∧ p.1 ≤ W * 0.9 ∧ H * 0.1 ≤ p.2 ∧ p.2 ≤ H * 0.9

lemma buildScaleMapE_ok_foldl :
    ∀ (l : List IntensityQuery) (m m' : Int → Int),
      buildScaleMapE l m = .ok m' → m' = l.foldl scaleMapInsert m := by
  intro l
  induction l with
  | nil =>
    intro m m' h
    simpa [buildScaleMapE] using h.symm
  | cons q rest ih =>
    intro m m' h
    by_cases hv : q.scale < 0 ∨ 7 < q.scale
    · simp [buildScaleMapE, hv] at h
    · rw [buildScaleMapE, if_neg hv] at h
      simpa [List.foldl_cons] using ih _ _ h

lemma foldl_scaleMapInsert_not_mem :
    ∀ (l : List IntensityQuery) (m : Int → Int) (i : Int),
      (∀ p ∈ l, p.id ≠ i) → (l.foldl scaleMapInsert m) i = m i := by
  intro l
  induction l with
  | nil => intro m i _; rfl
  | cons q rest ih =>
    intro m i h
    rw [List.foldl_cons, ih _ _ (fun p hp => h p (List.mem_cons_of_mem q hp))]
    have : q.id ≠ i := h q (List.mem_cons_self q rest)
    simp only [scaleMapInsert]
    rw [if_neg (fun hc => this hc.symm)]

lemma ringPathAux_succ (proj : Coord → ℝ × ℝ) :
    ∀ (cs : List Coord) (i : Nat),
      ringPathAux proj cs (i + 1) =
        (cs.map fun c => PathCmd.lineTo (proj c)) ++ [PathCmd.closePath] := by
  intro cs
  induction cs with
  | nil => intro i; rfl
  | cons c cs ih => intro i; simp [ringPathAux, ih]

lemma ringPath_cons (proj : Coord → ℝ × ℝ) (c : Coord) (cs : List Coord) :
    ringPath proj (c :: cs) =
      PathCmd.moveTo (proj c) ::
        ((cs.map fun c' => PathCmd.lineTo (proj c')) ++ [PathCmd.closePath]) := by
  simp [ringPath, ringPathAux, ringPathAux_succ]

lemma vertexCount_ringPath (proj : Coord → ℝ × ℝ) (ring : List Coord) :
    vertexCount (ringPath proj ring) = ring.length := by
  cases ring with
  | nil => rfl
  | cons c cs =>
    rw [ringPath_cons]
    simp [vertexCount, List.countP_cons, List.countP_append, List.countP_map,
      Function.comp_def]

/-- C4: levels 0..7 return exactly the palette entries of the switch, and
every level above 7 takes the default branch, whose ordering maps levels
above 6 to the darkest fallback tier and levels above 5 to the
second-darkest one. -/
theorem intensityToColor_palette :
    intensityToColor 0 = "#27272a" ∧ intensityToColor 1 = "#bae6fd" ∧
    intensityToColor 2 = "#4ade80" ∧ intensityToColor 3 = "#facc15" ∧
    intensityToColor 4 = "#f97316" ∧ intensityToColor 5 = "#dc2626" ∧
    intensityToColor 6 = "#86198f" ∧ intensityToColor 7 = "#500724" ∧
    ∀ s : Int, 7 < s →
      intensityToColor s =
        (if 6 < s then "#4a044e" else if 5 < s then "#b91c1c" else "#27272a") := by
  refine ⟨by decide, by decide, by decide, by decide, by decide, by decide, by decide,
    by decide, ?_⟩
  intro s hs
  have h6 : 6 < s := by omega
  rw [intensityToColor, if_neg (by omega : ¬s = 0), if_neg (by omega : ¬s = 1),
    if_neg (by omega : ¬s = 2), if_neg (by omega : ¬s = 3), if_neg (by omega : ¬s = 4),
    if_neg (by omega : ¬s = 5), if_neg (by omega : ¬s = 6), if_neg (by omega : ¬s = 7),
    if_pos h6]

/-- C1: for every bounds and canvas size, the projector closure of
`mapHandler` computes exactly the documented transform: x is
(lon - centerLon) * lonCorrection * scale + canvasCenterX and y is
(centerLat - lat) * scale + canvasCenterY, with the centers the midpoints of
the bounds, lonCorrection the cosine of the center latitude in radians,
margin fraction 0.1 per side, and scale the minimum of the two axis
candidates. -/
theorem funcToScreen_eq_specProject :
    ∀ (b : Bounds) (W H lon lat : ℝ),
      funcToScreen b W H lon lat = specProject b W H lon lat := by
  intro b W H lon lat
  simp only [funcToScreen, specProject]
  have h1 : (b.maxLat + b.minLat) / 2 = (b.minLat + b.maxLat) / 2 := by ring
  have h2 : (b.maxLon + b.minLon) / 2 = (b.minLon + b.maxLon) / 2 := by ring
  have h3 : W * (1.0 - 2 * 0.1) = W * 0.8 := by norm_num
  have h4 : H * (1.0 - 2 * 0.1) = H * 0.8 := by norm_num
  rw [h1, h2, h3, h4]
  norm_num

/-- C10: when the intensity payload holds several pairs with one region id
and validation passes, the scale map the handler builds holds the scale of
the last such pair; the earlier pairs for that id do not affect the value. -/
theorem buildScaleMapE_last_wins :
    ∀ (l₁ l₂ : List IntensityQuery) (q : IntensityQuery) (m : Int → Int),
      buildScaleMapE (l₁ ++ q :: l₂) (fun _ => 0) = .ok m →
      (∀ p ∈ l₂, p.id ≠ q.id) →
      m q.id = q.scale := by
  intro l₁ l₂ q m hok hl₂
  rw [buildScaleMapE_ok_foldl _ _ _ hok, List.foldl_append, List.foldl_cons,
    foldl_scaleMapInsert_not_mem l₂ _ _ hl₂]
  simp [scaleMapInsert]

/-- Witness for C10: with payload `[{id 1, scale 2}, {id 1, scale 5}]` the
built map sends id 1 to 5, the scale of the last pair. -/
theorem buildScaleMapE_last_wins_witness :
    buildScaleMapE ([⟨1, 2⟩] ++ ⟨1, 5⟩ :: []) (fun _ => 0) =
        .ok (scaleMapInsert (scaleMapInsert (fun _ => 0) ⟨1, 2⟩) ⟨1, 5⟩) ∧
      (∀ p ∈ ([] : List IntensityQuery), p.id ≠ (1 : Int)) ∧
      scaleMapInsert (scaleMapInsert (fun _ => 0) ⟨1, 2⟩) ⟨1, 5⟩ 1 = 5 :=
  ⟨rfl, by simp,
    buildScaleMapE_last_wins [⟨1, 2⟩] [] ⟨1, 5⟩ _ rfl (by simp)⟩

/-- C3: one closed path per ring (move-to the projected first vertex,
line-to each later projected vertex in order, close), path vertex count
equals ring vertex count, and a MultiPolygon emits one path per ring of
every sub-polygon, so its path count is the total ring count. -/
theorem buildPaths_ring_structure :
    ∀ (proj : Coord → ℝ × ℝ) (rings : List (List Coord))
      (polys : List (List (List Coord))) (c : Coord) (cs ring : List Coord),
      buildPaths proj (.polygon rings) = rings.map (ringPath proj) ∧
      (buildPaths proj (.polygon rings)).length = rings.length ∧
      ringPath proj (c :: cs) =
        PathCmd.moveTo (proj c) ::
          ((cs.map fun c' => PathCmd.lineTo (proj c')) ++ [PathCmd.closePath]) ∧
      vertexCount (ringPath proj ring) = ring.length ∧
      (buildPaths proj (.multiPolygon polys)).length = (polys.map List.length).sum := by
  intro proj rings polys c cs ring
  refine ⟨rfl, by simp [buildPaths], ringPath_cons proj c cs,
    vertexCount_ringPath proj ring, ?_⟩
  simp [buildPaths, List.length_flatten, List.map_map, Function.comp_def]

lemma calculateBoundsAux_all_inactive :
    ∀ (fs : List Feature) (sm : Int → Int) (b : Bounds),
      (∀ f ∈ fs, ∃ i, f.id = some i ∧ sm i = 0) →
      calculateBoundsAux sm fs b = .ok b := by
  intro fs
  induction fs with
  | nil => intro sm b _; rfl
  | cons f rest ih =>
    intro sm b h
    obtain ⟨i, hid, hz⟩ := h f (List.mem_cons_self f rest)
    rw [calculateBoundsAux, hid]
    simp only [hz, if_pos rfl]
    exact ih sm b (fun g hg => h g (List.mem_cons_of_mem f hg))

lemma widens_refl (b : Bounds) : widens b b :=
  ⟨le_refl _, le_refl _, le_refl _, le_refl _⟩

lemma widens_trans {a b c : Bounds} (h₁ : widens a b) (h₂ : widens b c) : widens a c :=
  ⟨le_trans h₂.1 h₁.1, le_trans h₂.2.1 h₁.2.1,
    le_trans h₁.2.2.1 h₂.2.2.1, le_trans h₁.2.2.2 h₂.2.2.2⟩

lemma updCoord_widens (b : Bounds) (c : Coord) : widens b (updCoord b c) :=
  ⟨min_le_left _ _, min_le_left _ _, le_max_left _ _, le_max_left _ _⟩

lemma updRing_widens (ring : List Coord) : ∀ b : Bounds, widens b (updRing b ring) := by
  induction ring with
  | nil => intro b; exact widens_refl b
  | cons c cs ih =>
    intro b
    exact widens_trans (updCoord_widens b c) (ih (updCoord b c))

lemma updRings_widens (rings : List (List Coord)) :
    ∀ b : Bounds, widens b (updRings b rings) := by
  induction rings with
  | nil => intro b; exact widens_refl b
  | cons r rs ih =>
    intro b
    exact widens_trans (updRing_widens r b) (ih (updRing b r))

lemma foldl_updRings_widens (polys : List (List (List Coord))) :
    ∀ b : Bounds, widens b (polys.foldl updRings b) := by
  induction polys with
  | nil => intro b; exact widens_refl b
  | cons p ps ih =>
    intro b
    exact widens_trans (updRings_widens p b) (ih (updRings b p))

lemma updGeometry_widens (b : Bounds) (g : Geometry) : widens b (updGeometry b g) := by
  cases g with
  | polygon rings => exact updRings_widens rings b
  | multiPolygon polys => exact foldl_updRings_widens polys b
  | unsupported _ => exact widens_refl b

lemma containsCoord_mono {b b' : Bounds} {c : Coord} (hw : widens b b')
    (hc : containsCoord b c) : containsCoord b' c :=
  ⟨le_trans hw.1 hc.1, le_trans hc.2.1 hw.2.2.1,
    le_trans hw.2.1 hc.2.2.1, le_trans hc.2.2.2 hw.2.2.2⟩

lemma updCoord_contains (b : Bounds) (c : Coord) : containsCoord (updCoord b c) c :=
  ⟨min_le_right _ _, le_max_right _ _, min_le_right _ _, le_max_right _ _⟩

lemma updRing_contains (ring : List Coord) :
    ∀ (b : Bounds) (c : Coord), c ∈ ring → containsCoord (updRing b ring) c := by
  induction ring with
  | nil => intro b c hc; cases hc
  | cons c0 cs ih =>
    intro b c hc
    rcases List.mem_cons.mp hc with h | h
    · subst h
      exact containsCoord_mono (updRing_widens cs _) (updCoord_contains b c)
    · exact ih (updCoord b c0) c h

lemma updRings_contains (rings : List (List Coord)) :
    ∀ (b : Bounds) (ring : List Coord) (c : Coord), ring ∈ rings → c ∈ ring →
      containsCoord (updRings b rings) c := by
  induction rings with
  | nil => intro b ring c hr _; cases hr
  | cons r rs ih =>
    intro b ring c hr hc
    rcases List.mem_cons.mp hr with h | h
    · subst h
      exact containsCoord_mono (updRings_widens rs _) (updRing_contains _ b c hc)
    · exact ih (updRing b r) ring c h hc

lemma foldl_updRings_contains (polys : List (List (List Coord))) :
    ∀ (b : Bounds) (rings : List (List Coord)) (ring : List Coord) (c : Coord),
      rings ∈ polys → ring ∈ rings → c ∈ ring →
      containsCoord (polys.foldl updRings b) c := by
  induction polys with
  | nil => intro b rings ring c hp _ _; cases hp
  | cons p ps ih =>
    intro b rings ring c hp hr hc
    rcases List.mem_cons.mp hp with h | h
    · subst h
      exact containsCoord_mono (foldl_updRings_widens ps _)
        (updRings_contains _ b ring c hr hc)
    · exact ih (updRings b p) rings ring c h hr hc

lemma updGeometry_contains (b : Bounds) (g : Geometry) :
    ∀ c ∈ geomCoords g, containsCoord (updGeometry b g) c := by
  intro c hc
  cases g with
  | polygon rings =>
    obtain ⟨ring, hr, hcr⟩ := List.mem_flatten.mp hc
    exact updRings_contains rings b ring c hr hcr
  | multiPolygon polys =>
    simp only [geomCoords, List.mem_flatten, List.mem_map] at hc
    obtain ⟨l, ⟨rings, hrs, hflat⟩, hcl⟩ := hc
    subst hflat
    obtain ⟨ring, hr, hcr⟩ := List.mem_flatten.mp hcl
    exact foldl_updRings_contains polys b rings ring c hrs hr hcr
  | unsupported _ => cases hc

lemma calculateBoundsAux_cons_none (sm : Int → Int) (rest : List Feature) (b : Bounds)
    (g : Geometry) :
    calculateBoundsAux sm (⟨none, g⟩ :: rest) b = .error "panic: interface conversion" := rfl

lemma calculateBoundsAux_cons_some (sm : Int → Int) (rest : List Feature) (b : Bounds)
    (g : Geometry) (i : Int) :
    calculateBoundsAux sm (⟨some i, g⟩ :: rest) b =
      if sm i = 0 then calculateBoundsAux sm rest b
      else calculateBoundsAux sm rest (updGeometry b g) := rfl

lemma calculateBoundsAux_ok :
    ∀ (fs : List Feature) (sm : Int → Int) (b b' : Bounds),
      calculateBoundsAux sm fs b = .ok b' →
      widens b b' ∧
        ∀ f ∈ fs, ∀ i, f.id = some i → sm i ≠ 0 →
          ∀ c ∈ geomCoords f.geom, containsCoord b' c := by
  intro fs
  induction fs with
  | nil =>
    intro sm b b' h
    rw [calculateBoundsAux] at h
    cases h
    exact ⟨widens_refl b, by intro f hf; cases hf⟩
  | cons f rest ih =>
    intro sm b b' h
    obtain ⟨fid, fgeom⟩ := f
    cases fid with
    | none => rw [calculateBoundsAux_cons_none] at h; cases h
    | some i =>
      rw [calculateBoundsAux_cons_some] at h
      by_cases hz : sm i = 0
      · rw [if_pos hz] at h
        obtain ⟨hw, hcont⟩ := ih sm b b' h
        refine ⟨hw, ?_⟩
        intro g hg j hj hnz c hc
        rcases List.mem_cons.mp hg with hgf | hgr
        · subst hgf
          cases hj
          exact absurd hz hnz
        · exact hcont g hgr j hj hnz c hc
      · rw [if_neg hz] at h
        obtain ⟨hw, hcont⟩ := ih sm (updGeometry b fgeom) b' h
        refine ⟨widens_trans (updGeometry_widens b fgeom) hw, ?_⟩
        intro g hg j hj hnz c hc
        rcases List.mem_cons.mp hg with hgf | hgr
        · subst hgf
          exact containsCoord_mono hw (updGeometry_contains b _ c hc)
        · exact hcont g hgr j hj hnz c hc

lemma calculateBoundsAux_eq_activeFold :
    ∀ (fs : List Feature) (sm : Int → Int) (b b' : Bounds),
      calculateBoundsAux sm fs b = .ok b' →
      b' = (activeGeoms fs sm).foldl updGeometry b := by
  intro fs
  induction fs with
  | nil =>
    intro sm b b' h
    rw [calculateBoundsAux] at h
    cases h
    rfl
  | cons f rest ih =>
    intro sm b b' h
    obtain ⟨fid, fgeom⟩ := f
    cases fid with
    | none => rw [calculateBoundsAux_cons_none] at h; cases h
    | some i =>
      rw [calculateBoundsAux_cons_some] at h
      by_cases hz : sm i = 0
      · rw [if_pos hz] at h
        rw [ih sm b b' h]
        simp [activeGeoms, hz]
      · rw [if_neg hz] at h
        rw [ih sm (updGeometry b fgeom) b' h]
        simp [activeGeoms, hz]

/-- C2: the bounds returned by `calculateBounds` contain every vertex of
every region with non-zero intensity (flattening multi-polygons), and the
result only depends on the geometries of the active regions, so changing an
inactive region's coordinates never changes the bounds. -/
theorem calculateBounds_active_bounds :
    ∀ (fs : List Feature) (sm : Int → Int) (b : Bounds),
      calculateBounds fs sm = .ok b →
      (∀ f ∈ fs, ∀ i, f.id = some i → sm i ≠ 0 →
        ∀ c ∈ geomCoords f.geom,
          b.minLon ≤ c.lon ∧ c.lon ≤ b.maxLon ∧ b.minLat ≤ c.lat ∧ c.lat ≤ b.maxLat) ∧
      (∀ (fs' : List Feature) (b' : Bounds),
        calculateBounds fs' sm = .ok b' →
        activeGeoms fs' sm = activeGeoms fs sm → b' = b) := by
  intro fs sm b h
  refine ⟨(calculateBoundsAux_ok fs sm initBounds b h).2, ?_⟩
  intro fs' b' h' hactive
  rw [calculateBoundsAux_eq_activeFold fs' sm initBounds b' h', hactive,
    ← calculateBoundsAux_eq_activeFold fs sm initBounds b h]

/-- Witness for C2: one active region with two vertices gives bounds
containing both, and a second dataset with the same active geometry but
different inactive geometry gives the same bounds. -/
theorem calculateBounds_active_bounds_witness :
    calculateBounds [⟨some 1, .polygon [[⟨135, 35⟩, ⟨137, 33⟩]]⟩]
        (fun i => if i = 1 then 5 else 0) =
      .ok (updGeometry initBounds (.polygon [[⟨135, 35⟩, ⟨137, 33⟩]])) ∧
      ((∀ f ∈ [Feature.mk (some 1) (.polygon [[⟨135, 35⟩, ⟨137, 33⟩]])],
        ∀ i, f.id = some i → (fun j : Int => if j = 1 then (5 : Int) else 0) i ≠ 0 →
        ∀ c ∈ geomCoords f.geom,
          (updGeometry initBounds (.polygon [[⟨135, 35⟩, ⟨137, 33⟩]])).minLon ≤ c.lon ∧
          c.lon ≤ (updGeometry initBounds (.polygon [[⟨135, 35⟩, ⟨137, 33⟩]])).maxLon ∧
          (updGeometry initBounds (.polygon [[⟨135, 35⟩, ⟨137, 33⟩]])).minLat ≤ c.lat ∧
          c.lat ≤ (updGeometry initBounds (.polygon [[⟨135, 35⟩, ⟨137, 33⟩]])).maxLat) ∧
      (∀ (fs' : List Feature) (b' : Bounds),
        calculateBounds fs' (fun j : Int => if j = 1 then (5 : Int) else 0) = .ok b' →
        activeGeoms fs' (fun j : Int => if j = 1 then (5 : Int) else 0) =
          activeGeoms [⟨some 1, .polygon [[⟨135, 35⟩, ⟨137, 33⟩]]⟩]
            (fun j : Int => if j = 1 then (5 : Int) else 0) →
        b' = updGeometry initBounds (.polygon [[⟨135, 35⟩, ⟨137, 33⟩]]))) :=
  ⟨rfl,
    calculateBounds_active_bounds [⟨some 1, .polygon [[⟨135, 35⟩, ⟨137, 33⟩]]⟩]
      (fun i => if i = 1 then 5 else 0) _ rfl⟩

/-- C8: with no active region, `calculateBounds` returns the initialization
values unchanged (minLon 180, minLat 90, maxLon -180, maxLat -90), inverted
bounds with min above max on both axes. -/
theorem calculateBounds_no_active :
    ∀ (fs : List Feature) (sm : Int → Int),
      (∀ f ∈ fs, ∃ i, f.id = some i ∧ sm i = 0) →
      calculateBounds fs sm = .ok initBounds ∧
        initBounds.minLon = 180 ∧ initBounds.minLat = 90 ∧
        initBounds.maxLon = -180 ∧ initBounds.maxLat = -90 ∧
        initBounds.maxLon < initBounds.minLon ∧ initBounds.maxLat < initBounds.minLat := by
  intro fs sm h
  refine ⟨calculateBoundsAux_all_inactive fs sm initBounds h, rfl, rfl, rfl, rfl, ?_, ?_⟩
  · show (-180 : ℝ) < 180
    norm_num
  · show (-90 : ℝ) < 90
    norm_num

/-- Witness for C8: one feature carrying real geometry whose intensity is 0
leaves the bounds inverted at the initialization values. -/
theorem calculateBounds_no_active_witness :
    (∀ f ∈ [Feature.mk (some 1) (.polygon [[⟨135, 35⟩]])],
        ∃ i, f.id = some i ∧ (fun _ : Int => (0 : Int)) i = 0) ∧
      (calculateBounds [⟨some 1, .polygon [[⟨135, 35⟩]]⟩] (fun _ => 0) = .ok initBounds ∧
        initBounds.minLon = 180 ∧ initBounds.minLat = 90 ∧
        initBounds.maxLon = -180 ∧ initBounds.maxLat = -90 ∧
        initBounds.maxLon < initBounds.minLon ∧ initBounds.maxLat < initBounds.minLat) :=
  ⟨by intro f hf; rw [List.mem_singleton] at hf; subst hf; exact ⟨1, rfl, rfl⟩,
    calculateBounds_no_active [⟨some 1, .polygon [[⟨135, 35⟩]]⟩] (fun _ => 0)
      (by intro f hf; rw [List.mem_singleton] at hf; subst hf; exact ⟨1, rfl, rfl⟩)⟩

lemma composeSceneAux_cons_none (proj : Coord → ℝ × ℝ) (sm : Int → Int) (m : ℝ)
    (rest : List Feature) (g : Geometry) :
    composeSceneAux proj sm m (⟨none, g⟩ :: rest) = .error "Invalid ID format in GeoJSON" := rfl

lemma composeSceneAux_cons_some (proj : Coord → ℝ × ℝ) (sm : Int → Int) (m : ℝ)
    (rest : List Feature) (g : Geometry) (i : Int) :
    composeSceneAux proj sm m (⟨some i, g⟩ :: rest) =
      match composeSceneAux proj sm m rest with
      | .error e => .error e
      | .ok tail =>
        .ok (SceneElem.regionPath (buildPaths proj g)
          ⟨intensityToColor (sm i), "#a1a1aa", 0.4 * m, 0.8⟩ :: tail) := rfl

lemma composeSceneAux_ok :
    ∀ (fs : List Feature) (proj : Coord → ℝ × ℝ) (sm : Int → Int) (m : ℝ)
      (es : List SceneElem),
      composeSceneAux proj sm m fs = .ok es →
      es = fs.map (fun f =>
        SceneElem.regionPath (buildPaths proj f.geom)
          ⟨intensityToColor (sm (f.id.getD 0)), "#a1a1aa", 0.4 * m, 0.8⟩) := by
  intro fs
  induction fs with
  | nil =>
    intro proj sm m es h
    rw [composeSceneAux] at h
    cases h
    rfl
  | cons f rest ih =>
    intro proj sm m es h
    obtain ⟨fid, fgeom⟩ := f
    cases fid with
    | none => rw [composeSceneAux_cons_none] at h; cases h
    | some i =>
      rw [composeSceneAux_cons_some] at h
      cases haux : composeSceneAux proj sm m rest with
      | error e => rw [haux] at h; cases h
      | ok tail =>
        rw [haux] at h
        cases h
        rw [ih proj sm m tail haux]
        simp

lemma buildScaleMapE_absent :
    ∀ (qs : List IntensityQuery) (m0 m : Int → Int) (i : Int),
      buildScaleMapE qs m0 = .ok m → (∀ q ∈ qs, q.id ≠ i) → m i = m0 i := by
  intro qs m0 m i hok habs
  rw [buildScaleMapE_ok_foldl qs m0 m hok]
  exact foldl_scaleMapInsert_not_mem qs m0 i habs

/-- C6: the scene holds the full-canvas background rectangle first and then
one path element per region in dataset order, inactive regions included;
each element's style carries the ColorRamp fill for the region's intensity
(default 0 for ids absent from the assignment), the fixed stroke color, the
stroke width 0.4 scaled by the output multiplier, and fill opacity 0.8. -/
theorem composeScene_spec :
    ∀ (fs : List Feature) (sm : Int → Int) (proj : Coord → ℝ × ℝ) (m W H : ℝ)
      (scene : List SceneElem),
      composeScene fs sm proj m W H = .ok scene →
      scene = SceneElem.background W H "#18181b" ::
          fs.map (fun f =>
            SceneElem.regionPath (buildPaths proj f.geom)
              ⟨intensityToColor (sm (f.id.getD 0)), "#a1a1aa", 0.4 * m, 0.8⟩) ∧
        ∀ (qs : List IntensityQuery) (sm' : Int → Int) (i : Int),
          buildScaleMapE qs (fun _ => 0) = .ok sm' → (∀ q ∈ qs, q.id ≠ i) → sm' i = 0 := by
  intro fs sm proj m W H scene h
  rw [composeScene] at h
  cases haux : composeSceneAux proj sm m fs with
  | error e => rw [haux] at h; cases h
  | ok elems =>
    rw [haux] at h
    cases h
    exact ⟨by rw [← composeSceneAux_ok fs proj sm m elems haux],
      fun qs sm' i hok habs => buildScaleMapE_absent qs _ sm' i hok habs⟩

/-- Witness for C6: a dataset of one inactive region composes to the
background rectangle followed by its path with the level-0 fill color. -/
theorem composeScene_spec_witness :
    composeScene [⟨some 1, .polygon [[⟨135, 35⟩]]⟩] (fun _ => 0)
        (fun c => (c.lon, c.lat)) 1 1280 720 =
      .ok [SceneElem.background 1280 720 "#18181b",
        SceneElem.regionPath [[PathCmd.moveTo (135, 35), PathCmd.closePath]]
          ⟨"#27272a", "#a1a1aa", 0.4 * 1, 0.8⟩] ∧
      ([SceneElem.background (1280 : ℝ) (720 : ℝ) "#18181b",
        SceneElem.regionPath [[PathCmd.moveTo (135, 35), PathCmd.closePath]]
          ⟨"#27272a", "#a1a1aa", 0.4 * 1, 0.8⟩] =
        SceneElem.background 1280 720 "#18181b" ::
          [Feature.mk (some 1) (.polygon [[⟨135, 35⟩]])].map (fun f =>
            SceneElem.regionPath (buildPaths (fun c => (c.lon, c.lat)) f.geom)
              ⟨intensityToColor ((fun _ : Int => (0 : Int)) (f.id.getD 0)), "#a1a1aa",
                0.4 * 1, 0.8⟩) ∧
        ∀ (qs : List IntensityQuery) (sm' : Int → Int) (i : Int),
          buildScaleMapE qs (fun _ => 0) = .ok sm' → (∀ q ∈ qs, q.id ≠ i) → sm' i = 0) :=
  ⟨rfl,
    composeScene_spec [⟨some 1, .polygon [[⟨135, 35⟩]]⟩] (fun _ => 0)
      (fun c => (c.lon, c.lat)) 1 1280 720 _ rfl⟩

lemma labelsAux_cons_skip (proj : Coord → ℝ × ℝ) (sm : Int → Int) (rest : List Feature)
    (g : Geometry) (i : Int) (hz : sm i = 0) :
    labelsAux proj sm (⟨some i, g⟩ :: rest) = labelsAux proj sm rest := by
  rw [labelsAux]
  simp [hz]

lemma labelsAux_ok :
    ∀ (fs : List Feature) (proj : Coord → ℝ × ℝ) (sm : Int → Int) (ls : List LabelCmd),
      labelsAux proj sm fs = .ok ls →
      ls = fs.filterMap (fun f =>
        f.id.bind (fun i =>
          if sm i = 0 then none
          else some (mkLabel proj (centroidOf f.geom) (sm i)))) := by
  intro fs
  induction fs with
  | nil =>
    intro proj sm ls h
    rw [labelsAux] at h
    cases h
    rfl
  | cons f rest ih =>
    intro proj sm ls h
    obtain ⟨fid, fgeom⟩ := f
    cases fid with
    | none => rw [labelsAux] at h; simp at h
    | some i =>
      by_cases hz : sm i = 0
      · rw [labelsAux_cons_skip proj sm rest fgeom i hz] at h
        simp [List.filterMap_cons, hz, ih proj sm ls h]
      · rw [labelsAux] at h
        simp only [hz, if_neg hz] at h
        cases fgeom with
        | polygon rings =>
          cases rings with
          | nil => simp at h
          | cons r rs =>
            simp only at h
            cases haux : labelsAux proj sm rest with
            | error e => rw [haux] at h; simp at h
            | ok tail =>
              rw [haux] at h
              simp only at h
              cases h
              simp [List.filterMap_cons, hz, ih proj sm tail haux]
        | multiPolygon polys =>
          cases polys with
          | nil => simp at h
          | cons p ps =>
            cases p with
            | nil => simp at h
            | cons r rs =>
              simp only at h
              cases haux : labelsAux proj sm rest with
              | error e => rw [haux] at h; simp at h
              | ok tail =>
                rw [haux] at h
                simp only at h
                cases h
                simp [List.filterMap_cons, hz, ih proj sm tail haux]
        | unsupported t =>
          simp only at h
          cases haux : labelsAux proj sm rest with
          | error e => rw [haux] at h; simp at h
          | ok tail =>
            rw [haux] at h
            simp only at h
            cases h
            simp [List.filterMap_cons, hz, ih proj sm tail haux]

/-- C7: when labels are requested, exactly the regions with non-zero
intensity get a label (ids absent from the assignment count as zero and get
none), drawn at the fixed offset (-5, +5) from the truncated projected
centroid; the centroid is the unweighted vertex mean of the first ring for a
Polygon and of the first ring of the first sub-polygon for a MultiPolygon. -/
theorem labels_spec :
    ∀ (fs : List Feature) (proj : Coord → ℝ × ℝ) (sm : Int → Int) (ls : List LabelCmd),
      labelsAux proj sm fs = .ok ls →
      ls = fs.filterMap (fun f =>
          f.id.bind (fun i =>
            if sm i = 0 then none
            else some (mkLabel proj (centroidOf f.geom) (sm i)))) ∧
        (∀ (c : ℝ × ℝ) (s : Int),
          mkLabel proj c s =
            ⟨goInt (proj ⟨c.1, c.2⟩).1 - 5, goInt (proj ⟨c.1, c.2⟩).2 + 5, toString s⟩) ∧
        (∀ (r : List Coord) (rs : List (List Coord)),
          centroidOf (.polygon (r :: rs)) = calculateCenter r) ∧
        (∀ (r : List Coord) (rs : List (List Coord)) (ps : List (List (List Coord))),
          centroidOf (.multiPolygon ((r :: rs) :: ps)) = calculateCenter r) ∧
        (∀ coords : List Coord,
          calculateCenter coords =
            ((coords.map Coord.lon).sum / coords.length,
              (coords.map Coord.lat).sum / coords.length)) := by
  intro fs proj sm ls h
  exact ⟨labelsAux_ok fs proj sm ls h, fun c s => rfl, fun r rs => rfl,
    fun r rs ps => rfl, fun coords => rfl⟩

/-- Witness for C7: of two regions, only the one with intensity 3 is
labelled, at the offset point of its projected first-ring vertex mean. -/
theorem labels_spec_witness :
    labelsAux (fun c => (c.lon, c.lat)) (fun i => if i = 1 then 3 else 0)
        [⟨some 1, .polygon [[⟨10, 20⟩, ⟨30, 40⟩]]⟩, ⟨some 2, .polygon [[⟨50, 60⟩]]⟩] =
      .ok [mkLabel (fun c => (c.lon, c.lat))
        (centroidOf (.polygon [[⟨10, 20⟩, ⟨30, 40⟩]])) 3] ∧
      ([mkLabel (fun c => (c.lon, c.lat)) (centroidOf (.polygon [[⟨10, 20⟩, ⟨30, 40⟩]])) 3] =
        [Feature.mk (some 1) (.polygon [[⟨10, 20⟩, ⟨30, 40⟩]]),
          Feature.mk (some 2) (.polygon [[⟨50, 60⟩]])].filterMap (fun f =>
          f.id.bind (fun i =>
            if (if i = 1 then (3 : Int) else 0) = 0 then none
            else some (mkLabel (fun c => (c.lon, c.lat)) (centroidOf f.geom)
              (if i = 1 then 3 else 0)))) ∧
        (∀ (c : ℝ × ℝ) (s : Int),
          mkLabel (fun c => (c.lon, c.lat)) c s =
            ⟨goInt c.1 - 5, goInt c.2 + 5, toString s⟩) ∧
        (∀ (r : List Coord) (rs : List (List Coord)),
          centroidOf (.polygon (r :: rs)) = calculateCenter r) ∧
        (∀ (r : List Coord) (rs : List (List Coord)) (ps : List (List (List Coord))),
          centroidOf (.multiPolygon ((r :: rs) :: ps)) = calculateCenter r) ∧
        (∀ coords : List Coord,
          calculateCenter coords =
            ((coords.map Coord.lon).sum / coords.length,
              (coords.map Coord.lat).sum / coords.length))) :=
  ⟨rfl,
    labels_spec [⟨some 1, .polygon [[⟨10, 20⟩, ⟨30, 40⟩]]⟩, ⟨some 2, .polygon [[⟨50, 60⟩]]⟩]
      (fun c => (c.lon, c.lat)) (fun i => if i = 1 then 3 else 0) _ rfl⟩

lemma calculateBoundsAux_ok_iff :
    ∀ (fs : List Feature) (sm : Int → Int) (b : Bounds),
      (∃ b', calculateBoundsAux sm fs b = .ok b') ↔ ∀ f ∈ fs, f.id ≠ none := by
  intro fs
  induction fs with
  | nil =>
    intro sm b
    exact ⟨fun _ f hf => absurd hf (List.not_mem_nil f), fun _ => ⟨b, rfl⟩⟩
  | cons f rest ih =>
    intro sm b
    obtain ⟨fid, fgeom⟩ := f
    cases fid with
    | none =>
      rw [calculateBoundsAux_cons_none]
      constructor
      · rintro ⟨b', hb'⟩
        cases hb'
      · intro h
        exact absurd rfl (h ⟨none, fgeom⟩ (List.mem_cons_self _ _))
    | some i =>
      rw [calculateBoundsAux_cons_some]
      by_cases hz : sm i = 0
      · rw [if_pos hz]
        rw [ih sm b]
        constructor
        · intro h g hg
          rcases List.mem_cons.mp hg with hgf | hgr
          · subst hgf; exact Option.some_ne_none i
          · exact h g hgr
        · intro h g hg
          exact h g (List.mem_cons_of_mem _ hg)
      · rw [if_neg hz]
        rw [ih sm (updGeometry b fgeom)]
        constructor
        · intro h g hg
          rcases List.mem_cons.mp hg with hgf | hgr
          · subst hgf; exact Option.some_ne_none i
          · exact h g hgr
        · intro h g hg
          exact h g (List.mem_cons_of_mem _ hg)

lemma composeSceneAux_ok_iff :
    ∀ (fs : List Feature) (proj : Coord → ℝ × ℝ) (sm : Int → Int) (m : ℝ),
      (∃ es, composeSceneAux proj sm m fs = .ok es) ↔ ∀ f ∈ fs, f.id ≠ none := by
  intro fs
  induction fs with
  | nil =>
    intro proj sm m
    exact ⟨fun _ f hf => absurd hf (List.not_mem_nil f), fun _ => ⟨[], rfl⟩⟩
  | cons f rest ih =>
    intro proj sm m
    obtain ⟨fid, fgeom⟩ := f
    cases fid with
    | none =>
      rw [composeSceneAux_cons_none]
      constructor
      · rintro ⟨es, hes⟩
        cases hes
      · intro h
        exact absurd rfl (h ⟨none, fgeom⟩ (List.mem_cons_self _ _))
    | some i =>
      rw [composeSceneAux_cons_some]
      constructor
      · rintro ⟨es, hes⟩
        intro g hg
        rcases List.mem_cons.mp hg with hgf | hgr
        · subst hgf; exact Option.some_ne_none i
        · cases haux : composeSceneAux proj sm m rest with
          | error e => rw [haux] at hes; cases hes
          | ok tail => exact ((ih proj sm m).mp ⟨tail, haux⟩) g hgr
      · intro h
        obtain ⟨tail, htail⟩ :=
          (ih proj sm m).mpr (fun g hg => h g (List.mem_cons_of_mem _ hg))
        rw [htail]
        exact ⟨_, rfl⟩

/-- C9 as the code has it: a missing or non-numeric id property is the one
per-feature condition that fails the request (the bounds pass and the scene
pass both fail exactly when a feature's id is absent), while an unsupported
geometry type is not fatal: it contributes no path and leaves the bounds
untouched, and the render continues. -/
theorem missing_id_only_failure :
    ∀ (fs : List Feature) (sm : Int → Int) (proj : Coord → ℝ × ℝ) (m W H : ℝ),
      ((∃ b, calculateBounds fs sm = .ok b) ↔ ∀ f ∈ fs, f.id ≠ none) ∧
      ((∃ scene, composeScene fs sm proj m W H = .ok scene) ↔ ∀ f ∈ fs, f.id ≠ none) ∧
      (∀ t, buildPaths proj (.unsupported t) = []) ∧
      (∀ t b, updGeometry b (.unsupported t) = b) := by
  intro fs sm proj m W H
  refine ⟨calculateBoundsAux_ok_iff fs sm initBounds, ?_, fun t => rfl, fun t b => rfl⟩
  rw [← composeSceneAux_ok_iff fs proj sm m]
  constructor
  · rintro ⟨scene, hscene⟩
    rw [composeScene] at hscene
    cases haux : composeSceneAux proj sm m fs with
    | error e => rw [haux] at hscene; cases hscene
    | ok es => exact ⟨es, rfl⟩
  · rintro ⟨es, hes⟩
    rw [composeScene, hes]
    exact ⟨_, rfl⟩

/-- Counterexample to C9 as frozen: a feature with a valid id, non-zero
intensity and an unsupported geometry type does not fail the request; every
pipeline stage succeeds, the feature's path list is empty, the bounds stay
at their initialization values, and the label pass still emits its label at
the projected zero-value centroid. -/
theorem unsupported_geometry_not_fatal :
    calculateBounds [⟨some 1, .unsupported "Point"⟩] (fun _ => 1) = .ok initBounds ∧
      composeScene [⟨some 1, .unsupported "Point"⟩] (fun _ => 1)
          (fun c => (c.lon, c.lat)) 1 1280 720 =
        .ok [SceneElem.background 1280 720 "#18181b",
          SceneElem.regionPath [] ⟨"#bae6fd", "#a1a1aa", 0.4 * 1, 0.8⟩] ∧
      labelsAux (fun c => (c.lon, c.lat)) (fun _ => 1) [⟨some 1, .unsupported "Point"⟩] =
        .ok [⟨-5, 5, "1"⟩] := by
  refine ⟨rfl, rfl, ?_⟩
  have h0 : goInt 0 = 0 := by
    rw [goInt, if_neg (lt_irrefl 0), Int.floor_zero]
  have h1 : labelsAux (fun c => (c.lon, c.lat)) (fun _ => 1)
      [⟨some 1, .unsupported "Point"⟩] =
      .ok [mkLabel (fun c => (c.lon, c.lat)) (0, 0) 1] := rfl
  rw [h1, mkLabel]
  simp only [h0]
  rfl

lemma letterbox_x (W d C s t : ℝ) (hW : 0 < W) (hd : 0 < d) (hC : 0 < C) (hs : 0 < s)
    (hsle : s ≤ W * (1.0 - 2 * 0.1) / (d * C))
    (ht1 : -(d / 2) ≤ t) (ht2 : t ≤ d / 2) :
    W * 0.1 ≤ t * C * s + W / 2 ∧ t * C * s + W / 2 ≤ W * 0.9 := by
  have hCs : 0 < C * s := mul_pos hC hs
  have h1 : t * C * s ≤ d / 2 * (C * s) := by
    rw [mul_assoc]
    exact mul_le_mul_of_nonneg_right ht2 hCs.le
  have h2 : -(d / 2 * (C * s)) ≤ t * C * s := by
    have h := mul_le_mul_of_nonneg_right ht1 hCs.le
    rw [neg_mul] at h
    rw [mul_assoc]
    exact h
  have hd0 : d ≠ 0 := ne_of_gt hd
  have hC0 : C ≠ 0 := ne_of_gt hC
  have hkey : d / 2 * (C * (W * (1.0 - 2 * 0.1) / (d * C))) = 0.4 * W := by
    field_simp
    ring_nf
  have h3 : d / 2 * (C * s) ≤ 0.4 * W := by
    rw [← hkey]
    exact mul_le_mul_of_nonneg_left (mul_le_mul_of_nonneg_left hsle hC.le)
      (by linarith : (0 : ℝ) ≤ d / 2)
  constructor <;> linarith

lemma letterbox_y (H d s u : ℝ) (hH : 0 < H) (hd : 0 < d) (hs : 0 < s)
    (hsle : s ≤ H * (1.0 - 2 * 0.1) / d)
    (hu1 : -(d / 2) ≤ u) (hu2 : u ≤ d / 2) :
    H * 0.1 ≤ u * s + H / 2 ∧ u * s + H / 2 ≤ H * 0.9 := by
  have h1 : u * s ≤ d / 2 * s := mul_le_mul_of_nonneg_right hu2 hs.le
  have h2 : -(d / 2 * s) ≤ u * s := by
    have h := mul_le_mul_of_nonneg_right hu1 hs.le
    rw [neg_mul] at h
    exact h
  have hd0 : d ≠ 0 := ne_of_gt hd
  have hkey : d / 2 * (H * (1.0 - 2 * 0.1) / d) = 0.4 * H := by
    field_simp
    ring_nf
  have h3 : d / 2 * s ≤ 0.4 * H := by
    rw [← hkey]
    exact mul_le_mul_of_nonneg_left hsle (by linarith : (0 : ℝ) ≤ d / 2)
  constructor <;> linarith

lemma funcToScreen_mem_inRect (b : Bounds) (W H lon lat : ℝ)
    (hlon : b.minLon < b.maxLon) (hlat : b.minLat < b.maxLat)
    (hlatlo : -90 ≤ b.minLat) (hlathi : b.maxLat ≤ 90)
    (hW : 0 < W) (hH : 0 < H)
    (h1 : b.minLon ≤ lon) (h2 : lon ≤ b.maxLon)
    (h3 : b.minLat ≤ lat) (h4 : lat ≤ b.maxLat) :
    inRect W H (funcToScreen b W H lon lat) := by
  have hpi := Real.pi_pos
  have hC : 0 < Real.cos ((b.maxLat + b.minLat) / 2 * Real.pi / 180.0) := by
    apply Real.cos_pos_of_mem_Ioo
    constructor
    · have hm := mul_pos (show (0 : ℝ) < (b.maxLat + b.minLat) / 2 + 90 by linarith) hpi
      show -(Real.pi / 2) < (b.maxLat + b.minLat) / 2 * Real.pi / 180.0
      nlinarith [hm]
    · have hm := mul_pos (show (0 : ℝ) < 90 - (b.maxLat + b.minLat) / 2 by linarith) hpi
      show (b.maxLat + b.minLat) / 2 * Real.pi / 180.0 < Real.pi / 2
      nlinarith [hm]
  have hdx : (0 : ℝ) < b.maxLon - b.minLon := by linarith
  have hdy : (0 : ℝ) < b.maxLat - b.minLat := by linarith
  have heff : (0 : ℝ) < 1.0 - 2 * 0.1 := by norm_num
  have hsX : 0 < W * (1.0 - 2 * 0.1) /
      ((b.maxLon - b.minLon) * Real.cos ((b.maxLat + b.minLat) / 2 * Real.pi / 180.0)) :=
    div_pos (mul_pos hW heff) (mul_pos hdx hC)
  have hsY : 0 < H * (1.0 - 2 * 0.1) / (b.maxLat - b.minLat) :=
    div_pos (mul_pos hH heff) hdy
  have hx := letterbox_x W (b.maxLon - b.minLon)
    (Real.cos ((b.maxLat + b.minLat) / 2 * Real.pi / 180.0))
    (min (W * (1.0 - 2 * 0.1) /
        ((b.maxLon - b.minLon) * Real.cos ((b.maxLat + b.minLat) / 2 * Real.pi / 180.0)))
      (H * (1.0 - 2 * 0.1) / (b.maxLat - b.minLat)))
    (lon - (b.maxLon + b.minLon) / 2)
    hW hdx hC (lt_min hsX hsY) (min_le_left _ _) (by linarith) (by linarith)
  have hy := letterbox_y H (b.maxLat - b.minLat)
    (min (W * (1.0 - 2 * 0.1) /
        ((b.maxLon - b.minLon) * Real.cos ((b.maxLat + b.minLat) / 2 * Real.pi / 180.0)))
      (H * (1.0 - 2 * 0.1) / (b.maxLat - b.minLat)))
    ((b.maxLat + b.minLat) / 2 - lat)
    hH hdy (lt_min hsX hsY) (min_le_right _ _) (by linarith) (by linarith)
  exact ⟨hx.1, hx.2, hy.1, hy.2⟩

/-- C5: for a non-degenerate geographically valid bounds and a positive
canvas, each of the four bounds corners projects into the margin-adjusted
drawing rectangle `[0.1 W, 0.9 W] x [0.1 H, 0.9 H]`. -/
theorem bounds_corners_in_margin_rect :
    ∀ (b : Bounds) (W H : ℝ),
      b.minLon < b.maxLon → b.minLat < b.maxLat →
      -90 ≤ b.minLat → b.maxLat ≤ 90 → 0 < W → 0 < H →
      inRect W H (funcToScreen b W H b.minLon b.minLat) ∧
      inRect W H (funcToScreen b W H b.minLon b.maxLat) ∧
      inRect W H (funcToScreen b W H b.maxLon b.minLat) ∧
      inRect W H (funcToScreen b W H b.maxLon b.maxLat) := by
  intro b W H h1 h2 h3 h4 h5 h6
  exact ⟨funcToScreen_mem_inRect b W H b.minLon b.minLat h1 h2 h3 h4 h5 h6 le_rfl h1.le
      le_rfl h2.le,
    funcToScreen_mem_inRect b W H b.minLon b.maxLat h1 h2 h3 h4 h5 h6 le_rfl h1.le
      h2.le le_rfl,
    funcToScreen_mem_inRect b W H b.maxLon b.minLat h1 h2 h3 h4 h5 h6 h1.le le_rfl
      le_rfl h2.le,
    funcToScreen_mem_inRect b W H b.maxLon b.maxLat h1 h2 h3 h4 h5 h6 h1.le le_rfl
      h2.le le_rfl⟩

/-- Witness for C5: the bounds 130..140 E, 30..40 N on a 1280 x 720 canvas
put all four projected corners inside the margin rectangle. -/
theorem bounds_corners_in_margin_rect_witness :
    ((130 : ℝ) < 140 ∧ (30 : ℝ) < 40 ∧ (-90 : ℝ) ≤ 30 ∧ (40 : ℝ) ≤ 90 ∧
      (0 : ℝ) < 1280 ∧ (0 : ℝ) < 720) ∧
      (inRect 1280 720 (funcToScreen ⟨130, 30, 140, 40⟩ 1280 720 130 30) ∧
        inRect 1280 720 (funcToScreen ⟨130, 30, 140, 40⟩ 1280 720 130 40) ∧
        inRect 1280 720 (funcToScreen ⟨130, 30, 140, 40⟩ 1280 720 140 30) ∧
        inRect 1280 720 (funcToScreen ⟨130, 30, 140, 40⟩ 1280 720 140 40)) :=
  ⟨⟨by norm_num, by norm_num, by norm_num, by norm_num, by norm_num, by norm_num⟩,
    bounds_corners_in_margin_rect ⟨130, 30, 140, 40⟩ 1280 720 (by norm_num) (by norm_num)
      (by norm_num) (by norm_num) (by norm_num) (by norm_num)⟩

end Images
